import Mathlib

/-!
Shallow embedding of the segmented download service: the `FileSplitter`
(part planner and part downloader), the per-address fixed-window rate
counter, the per-session sliding-window quota (`RateLimiter`), the unlock
token store (`AdTracker`), the content detector's large-file flag, and the
`POST` route handler that composes them.  JavaScript numbers are embedded
as exact integers (`Int`), timestamps as integer milliseconds, and the
Redis / Prisma stores as explicit functional state.
-/

namespace AVD

/-- `MAX_PART_SIZE` constant of the file splitter: 5 GiB in bytes. -/
def MAX_PART_SIZE : Int := 5 * 1024 * 1024 * 1024

/-- `MAX_SIZE` constant of the route handler: 5 GiB in bytes. -/
def MAX_SIZE : Int := 5 * 1024 * 1024 * 1024

/-- Exact embedding of JavaScript `Math.ceil(a / b)` on integers: for a
positive divisor, `Int` division `/` rounds toward negative infinity, so
the ceiling is `-((-a) / b)`. -/
def jsCeilDiv (a b : Int) : Int := -((-a) / b)

/-- The `FilePart` record built by `FileSplitter.splitFile` (the `start`
and `end` offsets are not stored; only the resulting `size`). -/
structure FilePart where
  url : String
  partNumber : Int
  size : Int
  totalParts : Int
deriving DecidableEq

/-- Body of the `splitFile` loop at index `i` (1-based):
`start = (i-1)*maxPart`, `end = Math.min(start + maxPart, fileSize)`, and
the pushed part has `size = end - start`. -/
def splitPart (fileSize maxPart i : Int) : FilePart :=
  let start := (i - 1) * maxPart
  let stop := min (start + maxPart) fileSize
  { url := "", partNumber := i, size := stop - start,
    totalParts := jsCeilDiv fileSize maxPart }

/-- `FileSplitter.splitFile`, generalized over the (in the source, fixed)
maximum part size: `totalParts = Math.ceil(fileSize / maxPart)` and the
loop runs `i` from `1` to `totalParts`. -/
def splitFileWith (fileSize maxPart : Int) : List FilePart :=
  (List.range (jsCeilDiv fileSize maxPart).toNat).map
    (fun (k : Nat) => splitPart fileSize maxPart ((k : Int) + 1))

/-- `FileSplitter.splitFile` exactly as in the source, with the fixed
`MAX_PART_SIZE`. -/
def splitFile (fileSize : Int) : List FilePart := splitFileWith fileSize MAX_PART_SIZE

/-- Start offset of a part's byte range, as recomputed from its 1-based
part number (`start = (partNumber - 1) * maxPart`). -/
def partStart (maxPart : Int) (p : FilePart) : Int := (p.partNumber - 1) * maxPart

/-- One-past-the-end offset of a part's byte range: its start plus its
size. -/
def partEnd (maxPart : Int) (p : FilePart) : Int := partStart maxPart p + p.size

/-- The `FilePart` value the route handler passes to
`FileSplitter.downloadPart` for part index `i` of an oversized resource:
the route sets `size := MAX_SIZE` for every part and
`totalParts := Math.ceil(fileSize / MAX_SIZE)`; it does not consult
`splitFile`. -/
def routePartFor (url : String) (fileSize i : Int) : FilePart :=
  { url := url, partNumber := i, size := MAX_SIZE,
    totalParts := jsCeilDiv fileSize MAX_SIZE }

/-- The inclusive byte range `downloadPart` puts in its `Range` header:
`start = (partNumber - 1) * MAX_PART_SIZE`, `end = start + part.size - 1`. -/
def downloadPartRange (p : FilePart) : Int × Int :=
  ((p.partNumber - 1) * MAX_PART_SIZE, (p.partNumber - 1) * MAX_PART_SIZE + p.size - 1)

/-- A row of the Prisma `adUnlock` table. -/
structure AdUnlock where
  sessionId : String
  url : String
  unlockedAt : Int
  expiresAt : Int
deriving DecidableEq

/-- `AdTracker.MIN_WATCH_TIME`: 5 seconds in ms. -/
def MIN_WATCH_TIME : Int := 5000

/-- `AdTracker.UNLOCK_DURATION`: 1 hour in ms. -/
def UNLOCK_DURATION : Int := 3600000

/-- `AdTracker.isUnlocked`: a row for the `(sessionId, url)` pair exists
with `expiresAt > now`. -/
def isUnlocked (db : List AdUnlock) (sessionId url : String) (now : Int) : Bool :=
  db.any (fun u => u.sessionId == sessionId && u.url == url && now < u.expiresAt)

/-- `AdTracker.trackAdWatch`: below the minimum watch time it returns
`false` without touching the store; otherwise it upserts the unique row
for the `(sessionId, url)` pair with `unlockedAt = now` and
`expiresAt = now + UNLOCK_DURATION` and returns `true`. -/
def trackAdWatch (db : List AdUnlock) (sessionId url : String) (watchTime now : Int) :
    Bool × List AdUnlock :=
  if watchTime < MIN_WATCH_TIME then (false, db)
  else
    (true,
      db.filter (fun u => !(u.sessionId == sessionId && u.url == url)) ++
        [{ sessionId := sessionId, url := url, unlockedAt := now,
           expiresAt := now + UNLOCK_DURATION }])

/-- A row of the Prisma `downloadHistory` table (the fields
`RateLimiter.checkLimit` queries). -/
structure DownloadRecord where
  sessionId : String
  timestamp : Int
deriving DecidableEq

/-- `RateLimiter` default config: 3 downloads per window. -/
def maxDownloads : Int := 3

/-- `RateLimiter` default window: 1 hour in ms. -/
def windowMs : Int := 3600000

/-- The count `RateLimiter.checkLimit` obtains from Prisma: records of the
session with `timestamp` in `[now - windowMs, now]`. -/
def windowCount (records : List DownloadRecord) (sessionId : String) (now : Int) : Int :=
  (records.filter (fun r =>
    r.sessionId == sessionId && decide (now - windowMs ≤ r.timestamp) &&
      decide (r.timestamp ≤ now))).length

/-- `RateLimiter.checkLimit`: `remaining = max(0, maxDownloads - count)`,
allowed iff `remaining > 0`. -/
def checkLimit (records : List DownloadRecord) (sessionId : String) (now : Int) :
    Bool × Int :=
  (decide (0 < max 0 (maxDownloads - windowCount records sessionId now)),
    max 0 (maxDownloads - windowCount records sessionId now))

/-- State of the Redis fixed-window counter under one address key:
the stored count plus the absolute expiry instant set by `EXPIRE`
(`none` = key has no TTL). -/
structure CounterState where
  count : Nat
  expiresAt : Option Int
deriving DecidableEq

/-- The window length passed to `EXPIRE`: 60 seconds. -/
def RATE_LIMIT_WINDOW : Int := 60

/-- The per-window cap: 100 requests per minute per IP. -/
def RATE_LIMIT_MAX : Nat := 100

/-- A Redis key whose TTL has elapsed behaves as absent. -/
def liveCounter (st : Option CounterState) (now : Int) : Option CounterState :=
  match st with
  | none => none
  | some c =>
    match c.expiresAt with
    | none => some c
    | some e => if e ≤ now then none else some c

/-- Route lines 42-55: `INCR` the per-address key (creating it at 1 when
absent or expired), call `EXPIRE 60` only when the incremented value is 1,
and deny when the value exceeds 100.  Returns (admitted?, new key state). -/
def rateLimitStep (st : Option CounterState) (now : Int) : Bool × Option CounterState :=
  match liveCounter st now with
  | none =>
    (decide (1 ≤ RATE_LIMIT_MAX),
      some { count := 1, expiresAt := some (now + RATE_LIMIT_WINDOW) })
  | some c =>
    (decide (c.count + 1 ≤ RATE_LIMIT_MAX),
      some { count := c.count + 1, expiresAt := c.expiresAt })

/-- The live count of the key (0 when absent or expired). -/
def liveCount (st : Option CounterState) (now : Int) : Nat :=
  match liveCounter st now with
  | none => 0
  | some c => c.count

/-- A sequence of requests from one address at the given times, oldest
first; returns the admission decisions and the final key state. -/
def rateLimitRun (st : Option CounterState) : List Int → List Bool × Option CounterState
  | [] => ([], st)
  | t :: ts =>
    let step := rateLimitStep st t
    let rest := rateLimitRun step.2 ts
    (step.1 :: rest.1, rest.2)

/-- `detectContentType`'s large-file flag:
`contentLength >= 5 * 1024 * 1024 * 1024`. -/
def isLargeFile (contentLength : Int) : Bool :=
  decide (5 * 1024 * 1024 * 1024 ≤ contentLength)

/-- The `type` field of `detectContentType`'s result. -/
inductive ContentKind
  | file
  | video
  | audio
  | image
  | torrent
deriving DecidableEq

/-- The `ContentInfo` object `detectContentType` resolves to:
`{type, size, isLargeFile}`. -/
structure ContentInfo where
  type : ContentKind
  size : Int
  isLargeFile : Bool
deriving DecidableEq

/-- JavaScript strict equality between an object value and a string:
always `false` (no coercion under `===`).  Route line 89 compares the
whole `ContentInfo` object returned by `detectContentType` against the
string literal, so its torrent branch never fires. -/
def jsEqObjectString (_o : ContentInfo) (_s : String) : Bool := false

/-- The request body of the `POST` route. -/
structure DlRequest where
  url : String
  mode : String
  downloadSpeed : String
  sessionId : String
  partSize : Option Int
deriving DecidableEq

/-- Observable side effects of one `POST` invocation, in program order. -/
inductive Eff
  | incrRate
  | unlockCheck
  | quotaCheck
  | classify
  | sizeProbe
  | fetchPart (first last : Int)
  | fetchWhole
  | recordHistory (sessionId url : String)
  | recordUser (sessionId url : String)
  | cachePut
deriving DecidableEq

/-- The response of one `POST` invocation. -/
inductive DlResponse
  | badRequest
  | limitReached
  | tooManyRequests
  | unlockRequired
  | quotaExceeded (remaining : Int)
  | torrentInfo
  | largeFileInfo (totalSize totalParts : Int)
  | partBytes
  | fileBytes
  | cachedInfo (payload : String)
  | serverError
deriving DecidableEq

/-- The external world one `POST` invocation observes: the clock, the
Redis counter for the caller's address, the two Prisma tables, the cached
`file_info` entry for the requested url, the classification result, the
probed size, and whether the byte fetch succeeds. -/
structure Env where
  now : Int
  addrCounter : Option CounterState
  unlocks : List AdUnlock
  history : List DownloadRecord
  cachedFileInfo : Option String
  contentInfo : ContentInfo
  fileSize : Int
  fetchOk : Bool
deriving DecidableEq

/-- JavaScript string interpolation of the `partSize` field
(`undefined` stringifies to "undefined"). -/
def jsStringOfPart : Option Int → String
  | none => "undefined"
  | some n => toString n

/-- The unlock key the route builds: `url + "#part" + partSize`. -/
def partUrlOf (req : DlRequest) : String :=
  req.url ++ "#part" ++ jsStringOfPart req.partSize

/-- `DownloadLimiter.checkDownloadLimit`: always allows, unbounded
remaining (`Infinity`, modelled as `none`). -/
def checkDownloadLimit (_userId : String) : Bool × Option Int := (true, none)

/-- Route lines 135-157: fetch one part via `downloadPart` (the range
request, then the part-cache write on success), then the history record
(only in history mode, under the part url) and the `UserDownloads`
record.  A failed fetch propagates to the route's catch-all. -/
def stageFetchPart (req : DlRequest) (env : Env) (i : Int) (tr : List Eff) :
    DlResponse × List Eff :=
  let range := downloadPartRange (routePartFor req.url env.fileSize i)
  let tr := tr ++ [Eff.fetchPart range.1 range.2]
  if env.fetchOk then
    let tr := tr ++ [Eff.cachePut]
    let tr := if req.mode == "history"
      then tr ++ [Eff.recordHistory req.sessionId (partUrlOf req)] else tr
    (DlResponse.partBytes, tr ++ [Eff.recordUser req.sessionId req.url])
  else (DlResponse.serverError, tr)

/-- Route lines 160-193: fetch the whole resource, then the history
record (only in history mode), the `UserDownloads` record and the
`file_info` cache write.  A failed fetch propagates to the catch-all. -/
def stageFetchWhole (req : DlRequest) (env : Env) (tr : List Eff) :
    DlResponse × List Eff :=
  let tr := tr ++ [Eff.fetchWhole]
  if env.fetchOk then
    let tr := if req.mode == "history"
      then tr ++ [Eff.recordHistory req.sessionId req.url] else tr
    (DlResponse.fileBytes,
      tr ++ [Eff.recordUser req.sessionId req.url, Eff.cachePut])
  else (DlResponse.serverError, tr)

/-- Route lines 84-193, after a `file_info` cache miss: classify; the
torrent-descriptor branch guarded by `contentType === 'torrent'` (which
compares the `ContentInfo` object to a string and so never fires — its
body, records with no fetch, is dead code kept here as in the source);
otherwise probe the size and branch on `fileSize > MAX_SIZE`, where a
missing (or JavaScript-falsy `0`) part index yields the large-file
descriptor response. -/
def stageClassified (req : DlRequest) (env : Env) (tr : List Eff) :
    DlResponse × List Eff :=
  let tr := tr ++ [Eff.classify]
  if jsEqObjectString env.contentInfo "torrent" then
    (DlResponse.torrentInfo,
      tr ++ [Eff.recordHistory req.sessionId req.url,
             Eff.recordUser req.sessionId req.url, Eff.cachePut])
  else
    let tr := tr ++ [Eff.sizeProbe]
    if MAX_SIZE < env.fileSize then
      match req.partSize with
      | none =>
        (DlResponse.largeFileInfo env.fileSize (jsCeilDiv env.fileSize MAX_SIZE),
          tr ++ [Eff.cachePut])
      | some i =>
        if i == 0 then
          (DlResponse.largeFileInfo env.fileSize (jsCeilDiv env.fileSize MAX_SIZE),
            tr ++ [Eff.cachePut])
        else stageFetchPart req env i tr
    else stageFetchWhole req env tr

/-- Route lines 80-82 and 196-202: a cached `file_info` entry is returned
directly, skipping classification and fetching. -/
def stageCache (req : DlRequest) (env : Env) (tr : List Eff) : DlResponse × List Eff :=
  match env.cachedFileInfo with
  | some payload => (DlResponse.cachedInfo payload, tr)
  | none => stageClassified req env tr

/-- Route lines 69-78: the sliding-window session quota, checked only in
history mode. -/
def stageHistoryGate (req : DlRequest) (env : Env) (tr : List Eff) :
    DlResponse × List Eff :=
  if req.mode == "history" then
    let tr := tr ++ [Eff.quotaCheck]
    let res := checkLimit env.history req.sessionId env.now
    if res.1 then stageCache req env tr else (DlResponse.quotaExceeded res.2, tr)
  else stageCache req env tr

/-- Route lines 57-67: fast-path requests require an unexpired unlock for
`url + "#part" + partSize`; otherwise 403. -/
def stageUnlockGate (req : DlRequest) (env : Env) (tr : List Eff) :
    DlResponse × List Eff :=
  if req.downloadSpeed == "fast" then
    let tr := tr ++ [Eff.unlockCheck]
    if isUnlocked env.unlocks req.sessionId (partUrlOf req) env.now then
      stageHistoryGate req env tr
    else (DlResponse.unlockRequired, tr)
  else stageHistoryGate req env tr

/-- The `POST` route handler: url validation, the always-allowing
download limiter, the per-address fixed-window counter, then the gates
and stages above. -/
def handlePost (req : DlRequest) (env : Env) : DlResponse × List Eff :=
  if req.url == "" then (DlResponse.badRequest, [])
  else if !(checkDownloadLimit req.sessionId).1 then (DlResponse.limitReached, [])
  else
    let gate := rateLimitStep env.addrCounter env.now
    if gate.1 then stageUnlockGate req env [Eff.incrRate]
    else (DlResponse.tooManyRequests, [Eff.incrRate])

/-- Classifier for fetch effects. -/
def isFetchEff : Eff → Bool
  | Eff.fetchPart _ _ => true
  | Eff.fetchWhole => true
  | _ => false

/-- Classifier for `DownloadHistory` record effects. -/
def isHistoryRecordEff : Eff → Bool
  | Eff.recordHistory _ _ => true
  | _ => false

/-- Classifier for `UserDownloads` record effects. -/
def isUserRecordEff : Eff → Bool
  | Eff.recordUser _ _ => true
  | _ => false

/-- Classifier for record effects of either store. -/
def isRecordEff (e : Eff) : Bool := isHistoryRecordEff e || isUserRecordEff e

/-- Program counter of one `downloadPart` caller, cut at its `await`
points. -/
inductive SFPc
  | entry
  | cacheMiss
  | awaitingOp (op : Nat)
  | done (op : Nat)
deriving DecidableEq

/-- Shared `FileSplitter` state for a single download key: the
`downloadQueue` entry for the key, the number of `axios.get` calls
issued so far, a fresh-operation counter, and each caller's program
counter. -/
structure SFState where
  inflight : Option Nat
  netCalls : Nat
  nextOp : Nat
  callers : List SFPc
deriving DecidableEq

/-- One atomic slice of caller `i` of `downloadPart` (atomic = no `await`
inside, faithful to the statement order of the source):
* at `entry`, the `downloadQueue.has` check: attach to the in-flight
  operation when an entry exists, otherwise suspend in the Redis
  part-cache lookup (taken to miss);
* at `cacheMiss`, resume from the cache lookup: `waitForSlot` passes (the
  pool is below capacity), the key is added to `activeDownloads`,
  `axios.get` is issued, and only then is the `downloadQueue` entry set —
  all in one synchronous slice;
* at `awaitingOp`, the awaited promise settles and the `finally` block
  removes the in-flight entry. -/
def sfStep (s : SFState) (i : Nat) : SFState :=
  match s.callers[i]? with
  | none => s
  | some SFPc.entry =>
    match s.inflight with
    | some op => { s with callers := s.callers.set i (SFPc.awaitingOp op) }
    | none => { s with callers := s.callers.set i SFPc.cacheMiss }
  | some SFPc.cacheMiss =>
    { s with
      inflight := some s.nextOp,
      netCalls := s.netCalls + 1,
      nextOp := s.nextOp + 1,
      callers := s.callers.set i (SFPc.awaitingOp s.nextOp) }
  | some (SFPc.awaitingOp op) =>
    { s with inflight := none, callers := s.callers.set i (SFPc.done op) }
  | some (SFPc.done _) => s

/-- Run a schedule (a list of caller indices) from a state. -/
def sfRun (s : SFState) : List Nat → SFState
  | [] => s
  | i :: rest => sfRun (sfStep s i) rest

/-- `n` concurrent `downloadPart` callers for the same key, none started,
empty part cache, no in-flight entry. -/
def sfInit (n : Nat) : SFState :=
  { inflight := none, netCalls := 0, nextOp := 0, callers := List.replicate n SFPc.entry }

/-- Which operation's outcome caller `i` resolved to, if finished. -/
def observedOp (s : SFState) (i : Nat) : Option Nat :=
  match s.callers[i]? with
  | some (SFPc.done op) => some op
  | _ => none

/-- Scenario request: a fast-path fetch of a small resource, no part
index. -/
def fastReq : DlRequest :=
  { url := "http://e/f", mode := "private", downloadSpeed := "fast",
    sessionId := "s1", partSize := none }

/-- Scenario environment: no prior grant, empty caches and tables, a
small resource whose fetch succeeds. -/
def noGrantEnv : Env :=
  { now := 10000, addrCounter := none, unlocks := [], history := [],
    cachedFileInfo := none,
    contentInfo := { type := ContentKind.file, size := 100, isLargeFile := false },
    fileSize := 100, fetchOk := true }

/-- The same environment after `trackAdWatch` with 6000 ms watched for
the request's unlock key. -/
def grantedEnv : Env :=
  { noGrantEnv with
    unlocks := (trackAdWatch [] "s1" (partUrlOf fastReq) 6000 10000).2 }

/-- Scenario request: a slow-path fetch (no unlock needed). -/
def slowReq : DlRequest :=
  { url := "http://e/f", mode := "private", downloadSpeed := "slow",
    sessionId := "s1", partSize := none }

/-- Scenario environment: a resource of exactly `MAX_SIZE` bytes. -/
def thresholdEnv : Env :=
  { noGrantEnv with fileSize := MAX_SIZE }

/-- Scenario request: a torrent url in private mode. -/
def torrentReq : DlRequest :=
  { url := "http://e/t.torrent", mode := "private", downloadSpeed := "slow",
    sessionId := "s1", partSize := none }

/-- Scenario environment: classification resolves to a `ContentInfo`
object whose `type` is `torrent`. -/
def torrentEnv : Env :=
  { now := 0, addrCounter := none, unlocks := [], history := [],
    cachedFileInfo := none,
    contentInfo := { type := ContentKind.torrent, size := 0, isLargeFile := false },
    fileSize := 0, fetchOk := true }

theorem jsCeilDiv_pos {a b : Int} (ha : 0 < a) (hb : 0 < b) : 0 < jsCeilDiv a b := by
  have h := Int.ediv_neg' (show -a < 0 by omega) hb
  unfold jsCeilDiv
  omega

theorem jsCeilDiv_nonpos {a b : Int} (ha : a ≤ 0) (hb : 0 < b) : jsCeilDiv a b ≤ 0 := by
  have h := Int.ediv_nonneg (show (0 : Int) ≤ -a by omega) (le_of_lt hb)
  unfold jsCeilDiv
  omega

theorem le_jsCeilDiv_mul {a b : Int} (hb : 0 < b) : a ≤ jsCeilDiv a b * b := by
  have h := Int.ediv_mul_le (-a) (ne_of_gt hb)
  unfold jsCeilDiv
  have hneg : -(-a / b) * b = -(-a / b * b) := by ring
  omega

theorem mul_lt_of_lt_jsCeilDiv {a b m : Int} (hb : 0 < b) (hm : m < jsCeilDiv a b) :
    m * b < a := by
  have h1 := Int.lt_ediv_add_one_mul_self (-a) hb
  have h2 : (-a / b + 1) * b ≤ (-m) * b := by
    have hle : -a / b + 1 ≤ -m := by unfold jsCeilDiv at hm; omega
    exact mul_le_mul_of_nonneg_right hle (le_of_lt hb)
  have h3 : (-m) * b = -(m * b) := by ring
  omega

theorem ediv_unique_of_between {x b j : Int} (hb : 0 < b)
    (h1 : j * b ≤ x) (h2 : x < (j + 1) * b) : j = x / b := by
  have ha := (Int.le_ediv_iff_mul_le hb).mpr h1
  have hc := (Int.ediv_lt_iff_lt_mul hb).mpr h2
  omega

theorem splitFileWith_length (ts mps : Int) :
    (splitFileWith ts mps).length = (jsCeilDiv ts mps).toNat := by
  unfold splitFileWith
  rw [List.length_map, List.length_range]

theorem splitFileWith_get (ts mps : Int) (k : Nat)
    (hk : k < (splitFileWith ts mps).length) :
    (splitFileWith ts mps).get ⟨k, hk⟩ =
      { url := "", partNumber := (k : Int) + 1,
        size := min ((k : Int) * mps + mps) ts - (k : Int) * mps,
        totalParts := jsCeilDiv ts mps } := by
  simp only [splitFileWith, List.get_eq_getElem, List.getElem_map, List.getElem_range]
  unfold splitPart
  have h1 : ((k : Int) + 1 - 1) = (k : Int) := by ring
  rw [h1]

theorem splitFileWith_partNumber (ts mps : Int) (k : Nat)
    (hk : k < (splitFileWith ts mps).length) :
    ((splitFileWith ts mps).get ⟨k, hk⟩).partNumber = (k : Int) + 1 := by
  rw [splitFileWith_get]

theorem splitFileWith_partStart (ts mps : Int) (k : Nat)
    (hk : k < (splitFileWith ts mps).length) :
    partStart mps ((splitFileWith ts mps).get ⟨k, hk⟩) = (k : Int) * mps := by
  rw [splitFileWith_get]
  unfold partStart
  ring_nf

theorem splitFileWith_partEnd (ts mps : Int) (k : Nat)
    (hk : k < (splitFileWith ts mps).length) :
    partEnd mps ((splitFileWith ts mps).get ⟨k, hk⟩) = min (((k : Int) + 1) * mps) ts := by
  rw [partEnd, splitFileWith_partStart, splitFileWith_get]
  show (k : Int) * mps + (min ((k : Int) * mps + mps) ts - (k : Int) * mps) =
    min (((k : Int) + 1) * mps) ts
  have h1 : ((k : Int) + 1) * mps = (k : Int) * mps + mps := by ring
  rw [h1]
  set K := (k : Int) * mps with hK
  omega

theorem splitFileWith_cover (ts mps : Int) (hts : 0 < ts) (hmps : 0 < mps)
    {x : Int} (hx0 : 0 ≤ x) (hxts : x < ts) :
    ∃! k : Nat, ∃ hk : k < (splitFileWith ts mps).length,
      partStart mps ((splitFileWith ts mps).get ⟨k, hk⟩) ≤ x ∧
      x < partEnd mps ((splitFileWith ts mps).get ⟨k, hk⟩) := by
  have hlen := splitFileWith_length ts mps
  have hnpos : 0 < jsCeilDiv ts mps := jsCeilDiv_pos hts hmps
  have hts_le : ts ≤ jsCeilDiv ts mps * mps := le_jsCeilDiv_mul hmps
  have hq0 : 0 ≤ x / mps := Int.ediv_nonneg hx0 (le_of_lt hmps)
  have hqle : x / mps * mps ≤ x := Int.ediv_mul_le x (ne_of_gt hmps)
  have hqlt : x < (x / mps + 1) * mps := Int.lt_ediv_add_one_mul_self x hmps
  have hqn : x / mps < jsCeilDiv ts mps := by
    by_contra hcon
    push_neg at hcon
    have hmul : jsCeilDiv ts mps * mps ≤ x / mps * mps :=
      mul_le_mul_of_nonneg_right hcon (le_of_lt hmps)
    omega
  have hkb : (x / mps).toNat < (splitFileWith ts mps).length := by omega
  refine ⟨(x / mps).toNat, ⟨hkb, ?_, ?_⟩, ?_⟩
  · rw [splitFileWith_partStart]
    have hcast : ((x / mps).toNat : Int) = x / mps := Int.toNat_of_nonneg hq0
    rw [hcast]
    exact hqle
  · rw [splitFileWith_partEnd]
    have hcast : ((x / mps).toNat : Int) = x / mps := Int.toNat_of_nonneg hq0
    rw [hcast]
    exact lt_min hqlt hxts
  · rintro j ⟨hj, hjs, hje⟩
    rw [splitFileWith_partStart] at hjs
    rw [splitFileWith_partEnd] at hje
    have hje' : x < ((j : Int) + 1) * mps := lt_of_lt_of_le hje (min_le_left _ _)
    have hjq : (j : Int) = x / mps := ediv_unique_of_between hmps hjs hje'
    omega

/-- C2: for all `totalSize > 0` and `maxPartSize > 0` the planner returns
`ceil(totalSize/maxPartSize)` parts, numbered `1..totalParts`, whose byte
ranges are `[k*maxPartSize, min((k+1)*maxPartSize, totalSize))`; every
offset of `[0, totalSize)` lies in exactly one part's range, so the ranges
are contiguous, non-overlapping, and tile `[0, totalSize)` exactly.
Concretely, `splitFile 12000000000` (with the source's fixed
`maxPartSize = 5368709120`) yields 3 parts of sizes
5368709120, 5368709120, 1262581760. -/
theorem splitFile_plans_exact_tiling :
    (∀ ts mps : Int, 0 < ts → 0 < mps →
      (splitFileWith ts mps).length = (jsCeilDiv ts mps).toNat ∧
      (∀ k : Nat, ∀ hk : k < (splitFileWith ts mps).length,
        ((splitFileWith ts mps).get ⟨k, hk⟩).partNumber = (k : Int) + 1 ∧
        partStart mps ((splitFileWith ts mps).get ⟨k, hk⟩) = (k : Int) * mps ∧
        partEnd mps ((splitFileWith ts mps).get ⟨k, hk⟩) = min (((k : Int) + 1) * mps) ts) ∧
      (∀ x : Int, 0 ≤ x → x < ts →
        ∃! k : Nat, ∃ hk : k < (splitFileWith ts mps).length,
          partStart mps ((splitFileWith ts mps).get ⟨k, hk⟩) ≤ x ∧
          x < partEnd mps ((splitFileWith ts mps).get ⟨k, hk⟩))) ∧
    (splitFile 12000000000).map (fun p => p.size) =
      [5368709120, 5368709120, 1262581760] ∧
    (splitFile 12000000000).length = 3 := by
  refine ⟨fun ts mps hts hmps => ⟨splitFileWith_length ts mps, ?_, ?_⟩, by decide, by decide⟩
  · intro k hk
    exact ⟨splitFileWith_partNumber ts mps k hk, splitFileWith_partStart ts mps k hk,
      splitFileWith_partEnd ts mps k hk⟩
  · intro x hx0 hxts
    exact splitFileWith_cover ts mps hts hmps hx0 hxts

theorem splitFile_plans_exact_tiling_witness :
    (splitFileWith 7 3).length = (jsCeilDiv 7 3).toNat :=
  (splitFile_plans_exact_tiling.1 7 3 (by decide) (by decide)).1

/-- C9 counterexample: for `totalSize = 0` (and for `-5`) the planner
returns a part list — the empty one — rather than failing; the source's
`splitFile` contains no error path at all. -/
theorem splitFile_nonpos_no_error : splitFile 0 = [] ∧ splitFile (-5) = [] := by
  decide

/-- C9 amended: for every `totalSize ≤ 0` the planner returns the empty
part list rather than raising an `InvalidInputError` (no such error
exists in the source, and the maximum part size is a fixed positive
constant rather than an argument). -/
theorem splitFile_nonpos_empty (fileSize : Int) (h : fileSize ≤ 0) :
    splitFile fileSize = [] := by
  unfold splitFile splitFileWith
  have hn : jsCeilDiv fileSize MAX_PART_SIZE ≤ 0 := jsCeilDiv_nonpos h (by decide)
  have hz : (jsCeilDiv fileSize MAX_PART_SIZE).toNat = 0 := by omega
  rw [hz]
  rfl

theorem splitFile_nonpos_empty_witness : (-7 : Int) ≤ 0 ∧ splitFile (-7) = [] :=
  ⟨by decide, splitFile_nonpos_empty (-7) (by decide)⟩

/-- C3 counterexample: for `totalSize = 12000000000` and part index 3 the
route-constructed part requests bytes `10737418240-16106127359`, while
the planner's range for part 3 ends at
`min(start + MAX_PART_SIZE, totalSize) - 1 = 11999999999`: the requested
end is not the planner's end and extends past `totalSize - 1`. -/
theorem route_part_range_mismatch :
    downloadPartRange (routePartFor "u" 12000000000 3) = (10737418240, 16106127359) ∧
    min ((3 - 1) * MAX_PART_SIZE + MAX_PART_SIZE) 12000000000 - 1 = 11999999999 ∧
    (12000000000 : Int) - 1 < (downloadPartRange (routePartFor "u" 12000000000 3)).2 := by
  decide

/-- C3 amended: the route passes `size = MAX_SIZE` for every part, so the
byte range `downloadPart` requests for part `i` is
`[(i-1)*MAX_PART_SIZE, i*MAX_PART_SIZE - 1]` regardless of the resource's
total size; whenever `totalSize < i*MAX_PART_SIZE` (in particular for the
last part of any total size that is not an exact multiple of
`MAX_PART_SIZE`) the requested end exceeds `totalSize - 1`. -/
theorem route_part_range (url : String) (fileSize i : Int) :
    downloadPartRange (routePartFor url fileSize i) =
      ((i - 1) * MAX_PART_SIZE, i * MAX_PART_SIZE - 1) ∧
    (fileSize < i * MAX_PART_SIZE →
      fileSize - 1 < (downloadPartRange (routePartFor url fileSize i)).2) := by
  have h1 : downloadPartRange (routePartFor url fileSize i) =
      ((i - 1) * MAX_PART_SIZE, i * MAX_PART_SIZE - 1) := by
    unfold downloadPartRange routePartFor
    show ((i - 1) * MAX_PART_SIZE, (i - 1) * MAX_PART_SIZE + MAX_PART_SIZE - 1) =
      ((i - 1) * MAX_PART_SIZE, i * MAX_PART_SIZE - 1)
    congr 1
    ring
  refine ⟨h1, fun h => ?_⟩
  rw [h1]
  show fileSize - 1 < i * MAX_PART_SIZE - 1
  omega

theorem route_part_range_witness :
    (12000000000 : Int) < 3 * MAX_PART_SIZE ∧
    (12000000000 : Int) - 1 < (downloadPartRange (routePartFor "u" 12000000000 3)).2 :=
  ⟨by decide, (route_part_range "u" 12000000000 3).2 (by decide)⟩

/-- C1: two concurrent `downloadPart` calls for the same key.  Under the
schedule where both callers run the `downloadQueue.has` check before
either executes `downloadQueue.set` (both are suspended in the Redis
part-cache lookup in between — the entry is set only after the
cache-lookup and slot-wait `await`s), the code issues two `axios.get`
network calls and the callers await different operations, so their
outcomes can diverge.  Only when the second caller arrives after the
first has set the entry does it attach and share the single network
call, as the last three conjuncts show. -/
theorem downloadPart_singleflight_race :
    (sfRun (sfInit 2) [0, 1, 0, 1, 0, 1]).netCalls = 2 ∧
    observedOp (sfRun (sfInit 2) [0, 1, 0, 1, 0, 1]) 0 = some 0 ∧
    observedOp (sfRun (sfInit 2) [0, 1, 0, 1, 0, 1]) 1 = some 1 ∧
    (sfRun (sfInit 2) [0, 0, 1, 1, 0]).netCalls = 1 ∧
    observedOp (sfRun (sfInit 2) [0, 0, 1, 1, 0]) 0 = some 0 ∧
    observedOp (sfRun (sfInit 2) [0, 0, 1, 1, 0]) 1 = some 0 := by
  decide

theorem isUnlocked_after_upsert (db : List AdUnlock) (sessionId url : String)
    (now t : Int) :
    isUnlocked
      (db.filter (fun u => !(u.sessionId == sessionId && u.url == url)) ++
        [{ sessionId := sessionId, url := url, unlockedAt := now,
           expiresAt := now + UNLOCK_DURATION }]) sessionId url t =
      decide (t < now + UNLOCK_DURATION) := by
  unfold isUnlocked
  rw [List.any_append]
  have hfilter : (db.filter (fun u => !(u.sessionId == sessionId && u.url == url))).any
      (fun u => u.sessionId == sessionId && u.url == url && decide (t < u.expiresAt)) =
        false := by
    rw [List.any_eq_false]
    intro u hu
    have hp := List.of_mem_filter hu
    cases hs : (u.sessionId == sessionId) <;> cases hu2 : (u.url == url) <;>
      simp [hs, hu2] at hp ⊢
  rw [hfilter]
  simp

/-- C6: `trackAdWatch` with `watchedMs < MIN_WATCH_TIME` returns `false`
and leaves the store untouched (so `isUnlocked` stays false if it was
false); with `watchedMs ≥ MIN_WATCH_TIME` it returns `true` and upserts
the pair's token with `expiresAt = now + UNLOCK_DURATION`, overwriting
any prior token for the pair, so `isUnlocked` for the pair is true at
every instant strictly before `expiresAt` and false at or after it. -/
theorem trackAdWatch_grant_semantics :
    (∀ (db : List AdUnlock) (sessionId url : String) (watchTime now : Int),
      watchTime < MIN_WATCH_TIME →
      trackAdWatch db sessionId url watchTime now = (false, db)) ∧
    (∀ (db : List AdUnlock) (sessionId url : String) (watchTime now : Int),
      MIN_WATCH_TIME ≤ watchTime →
      (trackAdWatch db sessionId url watchTime now).1 = true ∧
      ∀ t : Int,
        isUnlocked (trackAdWatch db sessionId url watchTime now).2 sessionId url t =
          decide (t < now + UNLOCK_DURATION)) := by
  constructor
  · intro db sessionId url watchTime now h
    unfold trackAdWatch
    rw [if_pos h]
  · intro db sessionId url watchTime now h
    unfold trackAdWatch
    rw [if_neg (by omega)]
    exact ⟨rfl, fun t => isUnlocked_after_upsert db sessionId url now t⟩

theorem trackAdWatch_grant_semantics_witness :
    (4999 : Int) < MIN_WATCH_TIME ∧ trackAdWatch [] "s" "u" 4999 0 = (false, []) :=
  ⟨by decide, trackAdWatch_grant_semantics.1 [] "s" "u" 4999 0 (by decide)⟩

/-- C4: every request increments the per-address counter (an expired key
restarts at 1); the 60-second TTL is installed exactly by the increment
that creates the key at count 1 and later increments never touch it;
starting from an empty window, 101 requests inside one window are
admitted for the first 100 and denied on the 101st (the route then
answers 429); a request after the window's TTL has elapsed is admitted
again, starting a fresh window at count 1. -/
theorem address_rate_limit_fixed_window :
    (∀ (st : Option CounterState) (now : Int),
      (rateLimitStep st now).2.map CounterState.count = some (liveCount st now + 1)) ∧
    (∀ (st : Option CounterState) (now : Int) (c : CounterState),
      liveCounter st now = some c →
      (rateLimitStep st now).2.map CounterState.expiresAt = some c.expiresAt) ∧
    (∀ (st : Option CounterState) (now : Int),
      liveCounter st now = none →
      (rateLimitStep st now).2 =
        some { count := 1, expiresAt := some (now + RATE_LIMIT_WINDOW) }) ∧
    (rateLimitRun none (List.replicate 101 0)).1 =
      List.replicate 100 true ++ [false] ∧
    (rateLimitStep (rateLimitRun none (List.replicate 101 0)).2 60).1 = true ∧
    (rateLimitStep (rateLimitRun none (List.replicate 101 0)).2 60).2 =
      some { count := 1, expiresAt := some (60 + RATE_LIMIT_WINDOW) } ∧
    (∀ (req : DlRequest) (env : Env), req.url ≠ "" →
      (rateLimitStep env.addrCounter env.now).1 = false →
      handlePost req env = (DlResponse.tooManyRequests, [Eff.incrRate])) := by
  refine ⟨?_, ?_, ?_, by decide, by decide, by decide, ?_⟩
  · intro st now
    unfold rateLimitStep liveCount
    cases hl : liveCounter st now <;> simp
  · intro st now c h
    unfold rateLimitStep
    rw [h]
    simp
  · intro st now h
    unfold rateLimitStep
    rw [h]
  · intro req env hurl hgate
    simp [handlePost, checkDownloadLimit, hurl, hgate]

theorem address_rate_limit_fixed_window_witness :
    (rateLimitStep (some { count := 5, expiresAt := some 40 }) 10).2.map
      CounterState.count =
    some (liveCount (some { count := 5, expiresAt := some 40 }) 10 + 1) :=
  address_rate_limit_fixed_window.1 (some { count := 5, expiresAt := some 40 }) 10

/-- C5: `checkLimit` returns `remaining = max(0, 3 - count)`, counting
the session's persisted records with timestamp in `[now - windowMs, now]`,
and allows iff `count < 3`; the route's quota gate is a no-op for
non-history requests and denies when `checkLimit` disallows; three
records inside the hour leave `remaining = 0` and the fourth history-mode
request is denied, and once the oldest record ages out of the window one
more is admitted. -/
theorem checkLimit_sliding_window :
    (∀ (records : List DownloadRecord) (sessionId : String) (now : Int),
      (checkLimit records sessionId now).2 =
        max 0 (maxDownloads - windowCount records sessionId now) ∧
      ((checkLimit records sessionId now).1 = true ↔
        windowCount records sessionId now < maxDownloads)) ∧
    (∀ (req : DlRequest) (env : Env) (tr : List Eff), req.mode ≠ "history" →
      stageHistoryGate req env tr = stageCache req env tr) ∧
    (∀ (req : DlRequest) (env : Env) (tr : List Eff), req.mode = "history" →
      (checkLimit env.history req.sessionId env.now).1 = false →
      stageHistoryGate req env tr =
        (DlResponse.quotaExceeded (checkLimit env.history req.sessionId env.now).2,
          tr ++ [Eff.quotaCheck])) ∧
    checkLimit [⟨"s", 0⟩, ⟨"s", 1000⟩, ⟨"s", 2000⟩] "s" 3000 = (false, 0) ∧
    checkLimit [⟨"s", 0⟩, ⟨"s", 1000⟩, ⟨"s", 2000⟩] "s" 3600001 = (true, 1) ∧
    handlePost { slowReq with mode := "history" }
        { noGrantEnv with
          now := 3000
          history := [⟨"s1", 0⟩, ⟨"s1", 1000⟩, ⟨"s1", 2000⟩] } =
      (DlResponse.quotaExceeded 0, [Eff.incrRate, Eff.quotaCheck]) ∧
    (handlePost { slowReq with mode := "history" }
        { noGrantEnv with
          now := 3600001
          history := [⟨"s1", 0⟩, ⟨"s1", 1000⟩, ⟨"s1", 2000⟩] }).1 =
      DlResponse.fileBytes := by
  refine ⟨?_, ?_, ?_, by decide, by decide, by decide, by decide⟩
  · intro records sessionId now
    unfold checkLimit
    refine ⟨rfl, ?_⟩
    simp only [decide_eq_true_eq]
    omega
  · intro req env tr hmode
    unfold stageHistoryGate
    rw [if_neg (by simp [hmode])]
  · intro req env tr hmode hdeny
    unfold stageHistoryGate
    rw [if_pos (by simp [hmode]), if_neg (by simp [hdeny])]

theorem checkLimit_sliding_window_witness :
    (checkLimit [] "s" 0).2 = max 0 (maxDownloads - windowCount [] "s" 0) ∧
    ((checkLimit [] "s" 0).1 = true ↔ windowCount [] "s" 0 < maxDownloads) :=
  checkLimit_sliding_window.1 [] "s" 0

/-- C7: a fast-path request whose `(sessionId, url#part...)` pair has no
unexpired unlock token is rejected with the distinct 403 unlock-required
response before any classification, size probe, cache write, fetch or
record occurs — the trace holds only the rate-counter increment and the
unlock check; a fast-path fetch with no prior grant is rejected, and
after `trackAdWatch` with `watchedMs = 6000` for that key the same fetch
succeeds. -/
theorem fast_path_unlock_gate :
    (∀ (req : DlRequest) (env : Env),
      req.url ≠ "" →
      (rateLimitStep env.addrCounter env.now).1 = true →
      req.downloadSpeed = "fast" →
      isUnlocked env.unlocks req.sessionId (partUrlOf req) env.now = false →
      handlePost req env =
        (DlResponse.unlockRequired, [Eff.incrRate, Eff.unlockCheck])) ∧
    handlePost fastReq noGrantEnv =
      (DlResponse.unlockRequired, [Eff.incrRate, Eff.unlockCheck]) ∧
    handlePost fastReq grantedEnv =
      (DlResponse.fileBytes,
        [Eff.incrRate, Eff.unlockCheck, Eff.classify, Eff.sizeProbe, Eff.fetchWhole,
         Eff.recordUser "s1" "http://e/f", Eff.cachePut]) := by
  refine ⟨?_, by decide, by decide⟩
  intro req env hurl hgate hfast hno
  simp [handlePost, checkDownloadLimit, stageUnlockGate, hurl, hgate, hfast, hno]

theorem fast_path_unlock_gate_witness :
    handlePost fastReq noGrantEnv =
      (DlResponse.unlockRequired, [Eff.incrRate, Eff.unlockCheck]) :=
  fast_path_unlock_gate.1 fastReq noGrantEnv (by decide) (by decide) (by decide)
    (by decide)

/-- C10: at exactly the 5 GiB threshold the orchestrator takes the
small-resource path — after classification and the size probe it issues
the single whole-resource fetch — because the oversized branch requires
`fileSize > MAX_SIZE` strictly, even though the content classifier's
`isLargeFile` flag is true exactly when `size ≥ 5*1024*1024*1024` and so
is already true there; a request for a threshold-size resource performs
one `fetchWhole` and no part fetch and returns the file bytes. -/
theorem threshold_boundary_small_path :
    (∀ (req : DlRequest) (env : Env) (tr : List Eff),
      env.fileSize = MAX_SIZE →
      stageClassified req env tr =
        stageFetchWhole req env (tr ++ [Eff.classify] ++ [Eff.sizeProbe])) ∧
    (∀ s : Int, isLargeFile s = decide (MAX_SIZE ≤ s)) ∧
    isLargeFile MAX_SIZE = true ∧
    handlePost slowReq thresholdEnv =
      (DlResponse.fileBytes,
        [Eff.incrRate, Eff.classify, Eff.sizeProbe, Eff.fetchWhole,
         Eff.recordUser "s1" "http://e/f", Eff.cachePut]) := by
  refine ⟨?_, fun s => rfl, by decide, by decide⟩
  intro req env tr hsize
  simp only [stageClassified]
  rw [if_neg (by simp [jsEqObjectString]), if_neg (by simp [hsize])]

theorem threshold_boundary_small_path_witness :
    stageClassified slowReq thresholdEnv [] =
      stageFetchWhole slowReq thresholdEnv ([] ++ [Eff.classify] ++ [Eff.sizeProbe]) :=
  threshold_boundary_small_path.1 slowReq thresholdEnv [] (by decide)

theorem takeWhile_append_stop {α : Type} (p : α → Bool) (l₁ l₂ : List α) (a : α)
    (h1 : ∀ x ∈ l₁, p x = true) (h2 : p a = false) :
    (l₁ ++ a :: l₂).takeWhile p = l₁ := by
  induction l₁ with
  | nil => simp [List.takeWhile_cons, h2]
  | cons b l ih =>
    have hb := h1 b (by simp)
    simp only [List.cons_append, List.takeWhile_cons, hb, if_true]
    rw [ih (fun x hx => h1 x (by simp [hx]))]

theorem stageFetchWhole_records (req : DlRequest) (env : Env) (tr : List Eff)
    (hclean : ∀ e ∈ tr, isFetchEff e = false ∧ isRecordEff e = false) :
    ((stageFetchWhole req env tr).2.takeWhile (fun e => !(isFetchEff e))).countP
        isRecordEff = 0 ∧
    (stageFetchWhole req env tr).2.countP isFetchEff = 1 ∧
    (env.fetchOk = false →
      (stageFetchWhole req env tr).2.countP isRecordEff = 0 ∧
      (stageFetchWhole req env tr).1 = DlResponse.serverError) ∧
    (env.fetchOk = true →
      (stageFetchWhole req env tr).2.countP isUserRecordEff = 1 ∧
      (stageFetchWhole req env tr).2.countP isHistoryRecordEff =
        (if req.mode = "history" then 1 else 0)) := by
  have htrF : tr.countP isFetchEff = 0 :=
    List.countP_eq_zero.mpr (fun e he => by simp [(hclean e he).1])
  have htrR : tr.countP isRecordEff = 0 :=
    List.countP_eq_zero.mpr (fun e he => by simp [(hclean e he).2])
  have htrU : tr.countP isUserRecordEff = 0 := by
    refine List.countP_eq_zero.mpr (fun e he => ?_)
    have h := (hclean e he).2
    unfold isRecordEff at h
    simp only [Bool.or_eq_false_iff] at h
    simp [h.2]
  have htrH : tr.countP isHistoryRecordEff = 0 := by
    refine List.countP_eq_zero.mpr (fun e he => ?_)
    have h := (hclean e he).2
    unfold isRecordEff at h
    simp only [Bool.or_eq_false_iff] at h
    simp [h.1]
  have hshape : ∃ rest, (stageFetchWhole req env tr).2 = tr ++ Eff.fetchWhole :: rest := by
    unfold stageFetchWhole
    cases hok : env.fetchOk <;> cases hm : (req.mode == "history") <;>
      simp [hok, hm]
  refine ⟨?_, ?_, ?_, ?_⟩
  · obtain ⟨rest, hr⟩ := hshape
    rw [hr, takeWhile_append_stop _ _ _ _ (fun x hx => by simp [(hclean x hx).1]) rfl]
    exact htrR
  · unfold stageFetchWhole
    cases hok : env.fetchOk <;> cases hm : (req.mode == "history") <;>
      simp [hok, hm, htrF, isFetchEff]
  · intro hno
    unfold stageFetchWhole
    simp [hno, htrR, isRecordEff, isHistoryRecordEff, isUserRecordEff]
  · intro hok
    unfold stageFetchWhole
    by_cases hm : req.mode = "history" <;>
      simp [hok, hm, htrU, htrH, isUserRecordEff, isHistoryRecordEff]

theorem stageFetchPart_records (req : DlRequest) (env : Env) (i : Int) (tr : List Eff)
    (hclean : ∀ e ∈ tr, isFetchEff e = false ∧ isRecordEff e = false) :
    ((stageFetchPart req env i tr).2.takeWhile (fun e => !(isFetchEff e))).countP
        isRecordEff = 0 ∧
    (stageFetchPart req env i tr).2.countP isFetchEff = 1 ∧
    (env.fetchOk = false →
      (stageFetchPart req env i tr).2.countP isRecordEff = 0 ∧
      (stageFetchPart req env i tr).1 = DlResponse.serverError) ∧
    (env.fetchOk = true →
      (stageFetchPart req env i tr).2.countP isUserRecordEff = 1 ∧
      (stageFetchPart req env i tr).2.countP isHistoryRecordEff =
        (if req.mode = "history" then 1 else 0)) := by
  have htrF : tr.countP isFetchEff = 0 :=
    List.countP_eq_zero.mpr (fun e he => by simp [(hclean e he).1])
  have htrR : tr.countP isRecordEff = 0 :=
    List.countP_eq_zero.mpr (fun e he => by simp [(hclean e he).2])
  have htrU : tr.countP isUserRecordEff = 0 := by
    refine List.countP_eq_zero.mpr (fun e he => ?_)
    have h := (hclean e he).2
    unfold isRecordEff at h
    simp only [Bool.or_eq_false_iff] at h
    simp [h.2]
  have htrH : tr.countP isHistoryRecordEff = 0 := by
    refine List.countP_eq_zero.mpr (fun e he => ?_)
    have h := (hclean e he).2
    unfold isRecordEff at h
    simp only [Bool.or_eq_false_iff] at h
    simp [h.1]
  have hshape : ∃ a b rest, (stageFetchPart req env i tr).2 =
      tr ++ Eff.fetchPart a b :: rest := by
    unfold stageFetchPart
    cases hok : env.fetchOk <;> cases hm : (req.mode == "history") <;>
      simp [hok, hm]
  refine ⟨?_, ?_, ?_, ?_⟩
  · obtain ⟨a, b, rest, hr⟩ := hshape
    rw [hr, takeWhile_append_stop _ _ _ _ (fun x hx => by simp [(hclean x hx).1]) rfl]
    exact htrR
  · unfold stageFetchPart
    cases hok : env.fetchOk <;> cases hm : (req.mode == "history") <;>
      simp [hok, hm, htrF, isFetchEff]
  · intro hno
    unfold stageFetchPart
    simp [hno, htrR, isRecordEff, isHistoryRecordEff, isUserRecordEff]
  · intro hok
    unfold stageFetchPart
    by_cases hm : req.mode = "history" <;>
      simp [hok, hm, htrU, htrH, isUserRecordEff, isHistoryRecordEff]

theorem handlePost_admitted_prefix (req : DlRequest) (env : Env)
    (hurl : req.url ≠ "")
    (hgate : (rateLimitStep env.addrCounter env.now).1 = true)
    (hfast : req.downloadSpeed = "fast" →
      isUnlocked env.unlocks req.sessionId (partUrlOf req) env.now = true)
    (hhist : req.mode = "history" →
      (checkLimit env.history req.sessionId env.now).1 = true) :
    ∃ tr0, handlePost req env = stageCache req env tr0 ∧
      (∀ e ∈ tr0, isFetchEff e = false ∧ isRecordEff e = false) := by
  have h0 : handlePost req env = stageUnlockGate req env [Eff.incrRate] := by
    simp [handlePost, checkDownloadLimit, hurl, hgate]
  by_cases hf : req.downloadSpeed = "fast"
  · have hun := hfast hf
    by_cases hm : req.mode = "history"
    · exact ⟨[Eff.incrRate, Eff.unlockCheck, Eff.quotaCheck],
        by rw [h0]; simp [stageUnlockGate, stageHistoryGate, hf, hm, hun, hhist hm],
        by decide⟩
    · exact ⟨[Eff.incrRate, Eff.unlockCheck],
        by rw [h0]; simp [stageUnlockGate, stageHistoryGate, hf, hm, hun],
        by decide⟩
  · by_cases hm : req.mode = "history"
    · exact ⟨[Eff.incrRate, Eff.quotaCheck],
        by rw [h0]; simp [stageUnlockGate, stageHistoryGate, hf, hm, hhist hm],
        by decide⟩
    · exact ⟨[Eff.incrRate],
        by rw [h0]; simp [stageUnlockGate, stageHistoryGate, hf, hm],
        by decide⟩

theorem stageFetchWhole_ne_torrentInfo (req : DlRequest) (env : Env) (tr : List Eff) :
    (stageFetchWhole req env tr).1 ≠ DlResponse.torrentInfo := by
  simp only [stageFetchWhole]
  split <;> simp

theorem stageFetchPart_ne_torrentInfo (req : DlRequest) (env : Env) (i : Int)
    (tr : List Eff) :
    (stageFetchPart req env i tr).1 ≠ DlResponse.torrentInfo := by
  simp only [stageFetchPart]
  split <;> simp

/-- C8: the route's torrent-descriptor branch never fires (line 89
compares the whole `ContentInfo` object to a string), so records are
created only by the two byte-fetch paths.  On every admitted request that
reaches a byte fetch (cache miss, with a usable part index when oversized)
no download record of either store precedes the fetch effect; exactly one
fetch is issued; a failing fetch yields the catch-all 500 with no record
in either store, consuming no quota; and a successful fetch creates
exactly one `UserDownloads` record, plus exactly one `DownloadHistory`
record in history mode (none otherwise).  Admitted cache-hit and
large-file-descriptor responses create no records, and a request whose
classification has type torrent falls through to the ordinary fetch path,
recording only after its successful fetch. -/
theorem records_follow_successful_fetch :
    (∀ (req : DlRequest) (env : Env),
      req.url ≠ "" →
      (rateLimitStep env.addrCounter env.now).1 = true →
      (req.downloadSpeed = "fast" →
        isUnlocked env.unlocks req.sessionId (partUrlOf req) env.now = true) →
      (req.mode = "history" →
        (checkLimit env.history req.sessionId env.now).1 = true) →
      env.cachedFileInfo = none →
      (MAX_SIZE < env.fileSize → ∃ i, req.partSize = some i ∧ i ≠ 0) →
      ((handlePost req env).2.takeWhile (fun e => !(isFetchEff e))).countP
        isRecordEff = 0 ∧
      (handlePost req env).2.countP isFetchEff = 1 ∧
      (env.fetchOk = false →
        (handlePost req env).2.countP isRecordEff = 0 ∧
        (handlePost req env).1 = DlResponse.serverError) ∧
      (env.fetchOk = true →
        (handlePost req env).2.countP isUserRecordEff = 1 ∧
        (handlePost req env).2.countP isHistoryRecordEff =
          (if req.mode = "history" then 1 else 0))) ∧
    (∀ (req : DlRequest) (env : Env) (tr : List Eff),
      (stageClassified req env tr).1 ≠ DlResponse.torrentInfo) ∧
    (∀ (req : DlRequest) (env : Env) (payload : String),
      req.url ≠ "" →
      (rateLimitStep env.addrCounter env.now).1 = true →
      (req.downloadSpeed = "fast" →
        isUnlocked env.unlocks req.sessionId (partUrlOf req) env.now = true) →
      (req.mode = "history" →
        (checkLimit env.history req.sessionId env.now).1 = true) →
      env.cachedFileInfo = some payload →
      (handlePost req env).2.countP isRecordEff = 0 ∧
      (handlePost req env).1 = DlResponse.cachedInfo payload) ∧
    (∀ (req : DlRequest) (env : Env),
      req.url ≠ "" →
      (rateLimitStep env.addrCounter env.now).1 = true →
      (req.downloadSpeed = "fast" →
        isUnlocked env.unlocks req.sessionId (partUrlOf req) env.now = true) →
      (req.mode = "history" →
        (checkLimit env.history req.sessionId env.now).1 = true) →
      env.cachedFileInfo = none →
      MAX_SIZE < env.fileSize →
      (req.partSize = none ∨ req.partSize = some 0) →
      (handlePost req env).2.countP isRecordEff = 0 ∧
      (handlePost req env).1 =
        DlResponse.largeFileInfo env.fileSize (jsCeilDiv env.fileSize MAX_SIZE)) ∧
    handlePost torrentReq torrentEnv =
      (DlResponse.fileBytes,
        [Eff.incrRate, Eff.classify, Eff.sizeProbe, Eff.fetchWhole,
         Eff.recordUser "s1" "http://e/t.torrent", Eff.cachePut]) := by
  refine ⟨?_, ?_, ?_, ?_, by decide⟩
  · intro req env hurl hgate hfast hhist hcache hpart
    obtain ⟨tr0, hEq, hclean0⟩ :=
      handlePost_admitted_prefix req env hurl hgate hfast hhist
    have h2 : handlePost req env = stageClassified req env tr0 := by
      rw [hEq]; simp [stageCache, hcache]
    have hclean1 : ∀ e ∈ tr0 ++ [Eff.classify, Eff.sizeProbe],
        isFetchEff e = false ∧ isRecordEff e = false := by
      intro e he
      rcases List.mem_append.mp he with he | he
      · exact hclean0 e he
      · simp only [List.mem_cons, List.not_mem_nil, or_false] at he
        rcases he with rfl | rfl
        · exact ⟨rfl, rfl⟩
        · exact ⟨rfl, rfl⟩
    by_cases hbig : MAX_SIZE < env.fileSize
    · obtain ⟨i, hi, hine⟩ := hpart hbig
      have h3 : handlePost req env =
          stageFetchPart req env i (tr0 ++ [Eff.classify, Eff.sizeProbe]) := by
        rw [h2]
        simp [stageClassified, jsEqObjectString, hbig, hi, hine, List.append_assoc]
      rw [h3]
      exact stageFetchPart_records req env i _ hclean1
    · have h3 : handlePost req env =
          stageFetchWhole req env (tr0 ++ [Eff.classify, Eff.sizeProbe]) := by
        rw [h2]
        simp [stageClassified, jsEqObjectString, hbig, List.append_assoc]
      rw [h3]
      exact stageFetchWhole_records req env _ hclean1
  · intro req env tr
    simp only [stageClassified, jsEqObjectString, Bool.false_eq_true, if_false]
    split
    · split
      · simp
      · split
        · simp
        · exact stageFetchPart_ne_torrentInfo req env _ _
    · exact stageFetchWhole_ne_torrentInfo req env _
  · intro req env payload hurl hgate hfast hhist hcache
    obtain ⟨tr0, hEq, hclean0⟩ :=
      handlePost_admitted_prefix req env hurl hgate hfast hhist
    have h2 : handlePost req env = (DlResponse.cachedInfo payload, tr0) := by
      rw [hEq]; simp [stageCache, hcache]
    rw [h2]
    exact ⟨List.countP_eq_zero.mpr (fun e he => by simp [(hclean0 e he).2]), rfl⟩
  · intro req env hurl hgate hfast hhist hcache hbig hfalsy
    obtain ⟨tr0, hEq, hclean0⟩ :=
      handlePost_admitted_prefix req env hurl hgate hfast hhist
    have h2 : handlePost req env = stageClassified req env tr0 := by
      rw [hEq]; simp [stageCache, hcache]
    have htr0 : tr0.countP isRecordEff = 0 :=
      List.countP_eq_zero.mpr (fun e he => by simp [(hclean0 e he).2])
    have h3 : handlePost req env =
        (DlResponse.largeFileInfo env.fileSize (jsCeilDiv env.fileSize MAX_SIZE),
          tr0 ++ [Eff.classify, Eff.sizeProbe, Eff.cachePut]) := by
      rcases hfalsy with hp | hp <;>
        · rw [h2]
          simp [stageClassified, jsEqObjectString, hbig, hp, List.append_assoc]
    rw [h3]
    refine ⟨?_, rfl⟩
    simp [List.countP_append, htr0, isRecordEff, isHistoryRecordEff, isUserRecordEff]

theorem records_follow_successful_fetch_witness :
    (handlePost slowReq noGrantEnv).2.countP isFetchEff = 1 :=
  (records_follow_successful_fetch.1 slowReq noGrantEnv (by decide) (by decide)
    (fun h => absurd h (by decide)) (fun h => absurd h (by decide)) rfl
    (fun h => absurd h (by decide))).2.1

end AVD
